import Mathlib

/-!
Shallow embedding of the lightbox / gallery engine of `src/script.js`.

The embedding models the module-scoped mutable state of the IIFE
(`figures`, `images`, `current`, `isOpen`) together with the presence of
the DOM surfaces the code guards on (`galleryContainer`, `lb`, `lbImage`).
DOM side effects that matter to the claims (setting the visible image and
caption, issuing background image fetches) are modelled as an explicit
list of effects returned next to the new state; purely visual effects
(opacity fades, aria attributes, scroll locking, tabIndex) are not
modelled.  JavaScript `%` on integers is T-division remainder, embedded
as `Int.tmod`; array reads `a[k]` that would throw on `undefined` are
embedded as guarded branches producing no effects / `none`.
-/

namespace Gallery

/-- An `img` element inside a gallery item: its rendered `src`, the
optional `data-large` attribute (`none` when the attribute is absent,
`some ""` when present but empty), and its `alt` text (the DOM property
is `""` when the attribute is absent, matching JS falsiness). -/
structure ImgEl where
  src : String
  dataLarge : Option String
  alt : String
deriving DecidableEq, Repr

/-- A `.gallery-item` element: its image child (if any), the `_bound`
guard flag the code stores on the element, and the list of click/key
activation handlers attached to it so far (each handler is recorded by
the entry position it opens, mirroring `() => openAt(i)`). -/
structure Item where
  img : Option ImgEl
  bound : Bool
  handlers : List Nat
deriving DecidableEq, Repr

/-- A scanned gallery entry, mirroring `{ thumb, large, alt, el }`
(the `el` back-reference is represented by the item position in `dom`,
kept in `GState.figures`). -/
structure Entry where
  thumb : String
  large : String
  alt : String
deriving DecidableEq, Repr

/-- The module-scoped state of the lightbox IIFE plus the presence flags
of the DOM nodes the code guards on (`galleryContainer`, `#lightbox`,
`#lbImage`).  `dom` is the current content of the gallery container:
its `.gallery-item` elements in document order. -/
structure GState where
  dom : List Item
  figures : List Nat
  images : List Entry
  current : Nat
  isOpen : Bool
  containerPresent : Bool
  lbPresent : Bool
  lbImagePresent : Bool
deriving DecidableEq, Repr

/-- Observable effects of the viewer operations: writing the visible
image/caption (`lbImage.src`, `lbImage.alt`, `lbCaption.textContent`)
and a fire-and-forget image fetch (`new Image().src = url`). -/
inductive Effect where
  | displayUpdate (idx : Nat) (url : String) (caption : String)
  | preload (url : String)
deriving DecidableEq, Repr

def defaultItem : Item := { img := none, bound := false, handlers := [] }

def defaultEntry : Entry := { thumb := "", large := "", alt := "" }

/-- Read `dom[j]` as a total function (out-of-range reads never occur in the
places this is used with a bound in scope). -/
def itemAt (d : List Item) (j : Nat) : Item := d.getD j defaultItem

/-- Read `images[n]` as a total function. -/
def entryAt (es : List Entry) (n : Nat) : Entry := es.getD n defaultEntry

/-- Entry extraction for the item at (0-based) container position `i`,
from `scanGallery`:
`thumb = img.src`, `large = img.dataset?.large || img.src`,
`alt = img.alt || «Image (i+1)»`.  The `||` fallbacks fire on the empty
string (JS falsiness), and the positional caption uses the index of the
`forEach` over all matching nodes. -/
def entryOfImg (i : Nat) (im : ImgEl) : Entry :=
  { thumb := im.src
  , large := match im.dataLarge with
      | some t => if t = "" then im.src else t
      | none => im.src
  , alt := if im.alt = "" then "Image " ++ toString (i + 1) else im.alt }

/-- The scanning `nodes.forEach((fig, i))` loop: returns, in document
order, the pairs (container position, extracted entry) for the nodes
that have an image child; nodes without one are skipped but still
advance the position counter `i`. -/
def scanPairs : List Item → Nat → List (Nat × Entry)
  | [], _ => []
  | it :: rest, i =>
    match it.img with
    | none => scanPairs rest (i + 1)
    | some im => (i, entryOfImg i im) :: scanPairs rest (i + 1)

/-- Replace the element at position `j` by `f` applied to it; identity
when `j` is out of range. -/
def modifyAt : List Item → Nat → (Item → Item) → List Item
  | [], _, _ => []
  | x :: xs, 0, f => f x :: xs
  | x :: xs, n + 1, f => x :: modifyAt xs n f

/-- The guarded binding step of `scanGallery`: if `fig._bound` is unset,
attach the click/key handler opening entry position `pos` and set the
guard; otherwise leave the element alone.  `addEventListener` adds a
fresh listener, so binding appends to `handlers`. -/
def bindItem (pos : Nat) (it : Item) : Item :=
  if it.bound then it
  else { it with handlers := it.handlers ++ [pos], bound := true }

/-- The `figures.forEach((fig, i))` binding loop, processing the list of
(entry position, container index) pairs left to right. -/
def bindFigures : List Item → List (Nat × Nat) → List Item
  | dom, [] => dom
  | dom, (pos, j) :: rest => bindFigures (modifyAt dom j (bindItem pos)) rest

/-- Pair each element of a list with its 0-based position, starting at
`p` (the `(fig, i)` of a `forEach`). -/
def withPositions : List Nat → Nat → List (Nat × Nat)
  | [], _ => []
  | j :: rest, p => (p, j) :: withPositions rest (p + 1)

/-- Model of `scanGallery()`: clear `figures`/`images`, return early if the
container is missing, otherwise rebuild both lists from the DOM and run
the guarded handler-binding loop over the scanned figures. -/
def scanGallery (s : GState) : GState :=
  if s.containerPresent = false then { s with figures := [], images := [] }
  else
    let pairs := scanPairs s.dom 0
    let figs := pairs.map Prod.fst
    { s with figures := figs
           , images := pairs.map Prod.snd
           , dom := bindFigures s.dom (withPositions figs 0) }

/-- The `figures.forEach(f => delete f._bound)` loop of
`refreshGallery`: clears the guard flag of exactly the elements whose
container index is in the current `figures` list. -/
def clearBoundAux : List Item → Nat → List Nat → List Item
  | [], _, _ => []
  | x :: xs, j, figs =>
    (if figs.contains j then { x with bound := false } else x)
      :: clearBoundAux xs (j + 1) figs

def clearBound (dom : List Item) (figs : List Nat) : List Item :=
  clearBoundAux dom 0 figs

/-- Model of `refreshGallery()`: clear the guard flags of the previously scanned
figures, then rescan.  It does not touch `current` or `isOpen`. -/
def refreshGallery (s : GState) : GState :=
  scanGallery { s with dom := clearBound s.dom s.figures }

/-- Model of `preloadNeighbors(idx)`: for offsets `-1` and `+1` issue a
background fetch of `images[(idx + offset + N) % N].large`.  With an
empty list the JS computes `index % 0 = NaN` and `images[NaN].large`
throws before any fetch: embedded as `none`. -/
def preloadNeighbors (es : List Entry) (idx : Nat) : Option (List String) :=
  if es.length = 0 then none
  else some ([idx + es.length - 1, idx + 1 + es.length].map
    (fun k => (entryAt es (k % es.length)).large))

/-- The effects of `update()`: nothing when `images` is empty or
`lbImage` is missing; otherwise the deferred callback writes the visible
image and caption from `images[current]` and then preloads the
neighbors.  When `current` is out of range the callback throws on
`images[current].large` before writing anything: no effects. -/
def updateEff (s : GState) : List Effect :=
  if s.images.length = 0 ∨ s.lbImagePresent = false then []
  else if s.current < s.images.length then
    Effect.displayUpdate s.current (entryAt s.images s.current).large
        (entryAt s.images s.current).alt
      :: ((preloadNeighbors s.images s.current).getD []).map Effect.preload
  else []

/-- The normalization `((index % N) + N) % N` with JS `%` (T-division remainder). -/
def normIndex (i : Int) (N : Nat) : Nat :=
  ((i.tmod (N : Int) + (N : Int)).tmod (N : Int)).toNat

/-- Model of `openAt(index)`: no-op when there are no entries or no `#lightbox`
element; otherwise normalize the index, run `update()`, and mark the
viewer open. -/
def openAt (i : Int) (s : GState) : GState × List Effect :=
  if s.images.length = 0 ∨ s.lbPresent = false then (s, [])
  else
    let s2 := { s with current := normIndex i s.images.length, isOpen := true }
    (s2, updateEff s2)

/-- Model of `closeLB()`: no-op when there is no `#lightbox` element; otherwise
clear the open flag (and restore page scroll, not modelled). -/
def closeLB (s : GState) : GState :=
  if s.lbPresent = false then s else { s with isOpen := false }

/-- Model of `next()`: no-op when there are no entries; otherwise advance
`current` by one with wraparound and run `update()`. -/
def next (s : GState) : GState × List Effect :=
  if s.images.length = 0 then (s, [])
  else
    let s2 := { s with current := (s.current + 1) % s.images.length }
    (s2, updateEff s2)

/-- Model of `prev()`: no-op when there are no entries; otherwise retreat
`current` by one with wraparound (`(current - 1 + N) % N`, computed in
`Nat` as `(current + N - 1) % N`, equal since `current + N ≥ 1`) and run
`update()`. -/
def prev (s : GState) : GState × List Effect :=
  if s.images.length = 0 then (s, [])
  else
    let s2 := { s with current := (s.current + s.images.length - 1) % s.images.length }
    (s2, updateEff s2)

/-- The state part of `next()`, for iterating. -/
def nextState (s : GState) : GState := (next s).1

/-! ### Concrete states used by witnesses and counterexamples -/

/-- A state scanned from an empty container. -/
def emptyState : GState :=
  { dom := [], figures := [], images := [], current := 0, isOpen := false
  , containerPresent := true, lbPresent := true, lbImagePresent := true }

def sampleEntries : List Entry :=
  [ { thumb := "t1", large := "L1", alt := "A" }
  , { thumb := "t2", large := "L2", alt := "B" }
  , { thumb := "t3", large := "L3", alt := "C" } ]

/-- A viewer opened on a three-entry gallery. -/
def sampleOpen : GState :=
  { dom := [], figures := [], images := sampleEntries, current := 0, isOpen := true
  , containerPresent := true, lbPresent := true, lbImagePresent := true }

/-- The same three-entry gallery with the viewer closed. -/
def sampleClosed : GState :=
  { dom := [], figures := [], images := sampleEntries, current := 0, isOpen := false
  , containerPresent := true, lbPresent := true, lbImagePresent := true }

/-- A non-empty gallery on a page with no `#lightbox` element. -/
def noLbState : GState :=
  { dom := [], figures := []
  , images := [ { thumb := "t", large := "L", alt := "A" } ]
  , current := 0, isOpen := false
  , containerPresent := true, lbPresent := false, lbImagePresent := true }

/-- A fresh three-item gallery page, not yet scanned. -/
def c3Start : GState :=
  { dom := [ { img := some { src := "t1", dataLarge := none, alt := "A1" }, bound := false, handlers := [] }
           , { img := some { src := "t2", dataLarge := none, alt := "A2" }, bound := false, handlers := [] }
           , { img := some { src := "t3", dataLarge := none, alt := "A3" }, bound := false, handlers := [] } ]
  , figures := [], images := [], current := 0, isOpen := false
  , containerPresent := true, lbPresent := true, lbImagePresent := true }

/-- Scan the three items, open the viewer at index 2, then let an
external DOM mutation shrink the container to its first item (still
bound from the first scan) and run the refresh the mutation observer
schedules. -/
def c3Shrunk : GState :=
  refreshGallery
    { (openAt 2 (scanGallery c3Start)).1 with
        dom := [ { img := some { src := "t1", dataLarge := none, alt := "A1" }
                 , bound := true, handlers := [0] } ] }

/-- A fresh one-item gallery page, not yet scanned. -/
def c4Start : GState :=
  { dom := [ { img := some { src := "a.jpg", dataLarge := none, alt := "A" }
             , bound := false, handlers := [] } ]
  , figures := [], images := [], current := 0, isOpen := false
  , containerPresent := true, lbPresent := true, lbImagePresent := true }

/-- A container whose first item has no image child and whose second
image of the second item has empty alt text. -/
def c7State : GState :=
  { dom := [ { img := none, bound := false, handlers := [] }
           , { img := some { src := "a.jpg", dataLarge := none, alt := "" }
             , bound := false, handlers := [] } ]
  , figures := [], images := [], current := 0, isOpen := false
  , containerPresent := true, lbPresent := true, lbImagePresent := true }

/-- A container with one item whose image carries a present-but-empty
`data-large` attribute. -/
def c8State : GState :=
  { dom := [ { img := some { src := "thumb.jpg", dataLarge := some "", alt := "x" }
             , bound := false, handlers := [] } ]
  , figures := [], images := [], current := 0, isOpen := false
  , containerPresent := true, lbPresent := true, lbImagePresent := true }

/-! ### Arithmetic facts about the JS index normalization -/

theorem tmod_lower_bound (i N : Int) (hN : 0 < N) : -N < i.tmod N := by
  rcases le_or_lt 0 i with hi | hi
  · have h := Int.tmod_nonneg N hi
    linarith
  · obtain ⟨m, rfl⟩ := Int.eq_negSucc_of_lt_zero hi
    obtain ⟨k, rfl⟩ := Int.eq_ofNat_of_zero_le hN.le
    have hk : 0 < k := by exact_mod_cast hN
    have hmod : (m + 1) % k < k := Nat.mod_lt _ hk
    have hdef : (Int.negSucc m).tmod ((k : Nat) : Int) = -(((m + 1) % k : Nat) : Int) := rfl
    rw [hdef]
    omega

/-- For a positive modulus, the JS double-remainder `((i % N) + N) % N`
(T-division remainder) equals the Euclidean remainder. -/
theorem tmod_norm_eq_emod (i N : Int) (hN : 0 < N) : (i.tmod N + N).tmod N = i % N := by
  have h1 : 0 ≤ i.tmod N + N := by
    have := tmod_lower_bound i N hN
    linarith
  rw [Int.tmod_eq_emod h1 hN.le]
  have hq := Int.tmod_add_tdiv i N
  calc (i.tmod N + N) % N
      = (i.tmod N + N * 1) % N := by ring_nf
    _ = i.tmod N % N := Int.add_mul_emod_self_left _ _ _
    _ = (i.tmod N + N * i.tdiv N) % N := (Int.add_mul_emod_self_left _ _ _).symm
    _ = i % N := by rw [hq]

theorem normIndex_cast (i : Int) (N : Nat) (hN : 0 < N) :
    (normIndex i N : Int) = i % (N : Int) := by
  have hNZ : (0 : Int) < (N : Int) := by exact_mod_cast hN
  unfold normIndex
  rw [tmod_norm_eq_emod i (N : Int) hNZ]
  exact Int.toNat_of_nonneg (Int.emod_nonneg i hNZ.ne')

theorem normIndex_lt (i : Int) (N : Nat) (hN : 0 < N) : normIndex i N < N := by
  have hNZ : (0 : Int) < (N : Int) := by exact_mod_cast hN
  have h := normIndex_cast i N hN
  have h2 : i % (N : Int) < N := Int.emod_lt_of_pos i hNZ
  omega

theorem emod_add_self_emod (i N : Int) : (i % N + N) % N = i % N := by
  have h : i % N + N = i % N + N * 1 := by ring
  rw [h, Int.add_mul_emod_self_left, Int.emod_emod_of_dvd i dvd_rfl]

/-! ### Behavior of `update()` -/

theorem updateEff_eq (s : GState) (h : s.images.length ≠ 0) (hi : s.lbImagePresent = true)
    (hc : s.current < s.images.length) :
    updateEff s = Effect.displayUpdate s.current (entryAt s.images s.current).large
        (entryAt s.images s.current).alt
      :: ((preloadNeighbors s.images s.current).getD []).map Effect.preload := by
  unfold updateEff
  simp [h, hi, hc]

theorem openAt_fst (s : GState) (i : Int) (h : s.images.length ≠ 0) (hlb : s.lbPresent = true) :
    (openAt i s).1 = { s with current := normIndex i s.images.length, isOpen := true } := by
  simp [openAt, h, hlb]

theorem openAt_snd (s : GState) (i : Int) (h : s.images.length ≠ 0) (hlb : s.lbPresent = true) :
    (openAt i s).2 = updateEff { s with current := normIndex i s.images.length, isOpen := true } := by
  simp [openAt, h, hlb]

theorem nextState_step (s : GState) (h : s.images.length ≠ 0) :
    (nextState s).current = (s.current + 1) % s.images.length ∧
    (nextState s).images = s.images := by
  unfold nextState next
  simp [h]

theorem nextState_iter (s : GState) (h : s.images ≠ []) (hc : s.current < s.images.length) :
    ∀ k, (nextState^[k] s).current = (s.current + k) % s.images.length ∧
         (nextState^[k] s).images = s.images := by
  intro k
  induction k with
  | zero => simpa using (Nat.mod_eq_of_lt hc).symm
  | succ k ih =>
    rw [Function.iterate_succ_apply']
    have hlen : (nextState^[k] s).images.length ≠ 0 := by
      rw [ih.2]
      simpa using h
    obtain ⟨h1, h2⟩ := nextState_step _ hlen
    constructor
    · rw [h1, ih.1, ih.2, Nat.mod_add_mod]
      congr 1
    · rw [h2, ih.2]

/-! ### Scanning and binding lemmas -/

theorem bindItem_img (p : Nat) (it : Item) : (bindItem p it).img = it.img := by
  unfold bindItem
  split <;> rfl

theorem bindItem_bound (p : Nat) (it : Item) : (bindItem p it).bound = true := by
  unfold bindItem
  split
  · assumption
  · rfl

theorem bindItem_of_bound (p : Nat) (it : Item) (h : it.bound = true) : bindItem p it = it := by
  unfold bindItem
  simp [h]

theorem itemAt_cons_succ (x : Item) (xs : List Item) (n : Nat) :
    itemAt (x :: xs) (n + 1) = itemAt xs n := by
  simp [itemAt]

theorem modifyAt_length (d : List Item) (j : Nat) (f : Item → Item) :
    (modifyAt d j f).length = d.length := by
  induction d generalizing j with
  | nil => rfl
  | cons x xs ih =>
    cases j with
    | zero => rfl
    | succ n => simp [modifyAt, ih]

theorem modifyAt_map_img (d : List Item) (j : Nat) (f : Item → Item)
    (hf : ∀ it, (f it).img = it.img) :
    (modifyAt d j f).map Item.img = d.map Item.img := by
  induction d generalizing j with
  | nil => rfl
  | cons x xs ih =>
    cases j with
    | zero => simp [modifyAt, hf]
    | succ n => simp [modifyAt, ih]

theorem itemAt_modifyAt_self (d : List Item) (j : Nat) (f : Item → Item) (h : j < d.length) :
    itemAt (modifyAt d j f) j = f (itemAt d j) := by
  induction d generalizing j with
  | nil => simp at h
  | cons x xs ih =>
    cases j with
    | zero => rfl
    | succ n =>
      simp only [modifyAt, itemAt_cons_succ]
      exact ih n (by simp only [List.length_cons] at h; omega)

theorem itemAt_modifyAt_ne (d : List Item) (j k : Nat) (f : Item → Item) (h : k ≠ j) :
    itemAt (modifyAt d j f) k = itemAt d k := by
  induction d generalizing j k with
  | nil => rfl
  | cons x xs ih =>
    cases j with
    | zero =>
      cases k with
      | zero => exact absurd rfl h
      | succ m => simp only [modifyAt, itemAt_cons_succ]
    | succ n =>
      cases k with
      | zero => rfl
      | succ m =>
        simp only [modifyAt, itemAt_cons_succ]
        exact ih n m (by omega)

theorem modifyAt_of_out (d : List Item) (j : Nat) (f : Item → Item) (h : d.length ≤ j) :
    modifyAt d j f = d := by
  induction d generalizing j with
  | nil => rfl
  | cons x xs ih =>
    cases j with
    | zero => simp at h
    | succ n =>
      simp only [modifyAt]
      rw [ih n (by simp only [List.length_cons] at h; omega)]

theorem modifyAt_id (d : List Item) (j : Nat) (f : Item → Item)
    (h : f (itemAt d j) = itemAt d j) : modifyAt d j f = d := by
  induction d generalizing j with
  | nil => rfl
  | cons x xs ih =>
    cases j with
    | zero =>
      simp only [modifyAt]
      rw [show f x = x from h]
    | succ n =>
      simp only [modifyAt]
      rw [ih n (by simpa [itemAt_cons_succ] using h)]

theorem bindFigures_map_img (d : List Item) (ps : List (Nat × Nat)) :
    (bindFigures d ps).map Item.img = d.map Item.img := by
  induction ps generalizing d with
  | nil => rfl
  | cons p rest ih =>
    obtain ⟨pos, j⟩ := p
    rw [bindFigures, ih, modifyAt_map_img]
    exact fun it => bindItem_img pos it

theorem bindFigures_length (d : List Item) (ps : List (Nat × Nat)) :
    (bindFigures d ps).length = d.length := by
  induction ps generalizing d with
  | nil => rfl
  | cons p rest ih =>
    obtain ⟨pos, j⟩ := p
    rw [bindFigures, ih, modifyAt_length]

theorem bindFigures_bound_mono (ps : List (Nat × Nat)) (d : List Item) (j : Nat)
    (h : (itemAt d j).bound = true) :
    (itemAt (bindFigures d ps) j).bound = true := by
  induction ps generalizing d with
  | nil => exact h
  | cons p rest ih =>
    obtain ⟨pos, j2⟩ := p
    rw [bindFigures]
    apply ih
    by_cases hj : j = j2
    · subst hj
      by_cases hlt : j < d.length
      · rw [itemAt_modifyAt_self d j _ hlt]
        exact bindItem_bound pos _
      · rw [modifyAt_of_out d j _ (by omega)]
        exact h
    · rw [itemAt_modifyAt_ne d j2 j _ hj]
      exact h

theorem bindFigures_binds (ps : List (Nat × Nat)) (d : List Item) (pos j : Nat)
    (hmem : (pos, j) ∈ ps) (hj : j < d.length) :
    (itemAt (bindFigures d ps) j).bound = true := by
  induction ps generalizing d with
  | nil => simp at hmem
  | cons p rest ih =>
    obtain ⟨pos2, j2⟩ := p
    rw [bindFigures]
    rcases List.mem_cons.mp hmem with heq | hm
    · injection heq with h1 h2
      subst h2
      apply bindFigures_bound_mono
      rw [itemAt_modifyAt_self d j _ hj]
      exact bindItem_bound pos2 _
    · exact ih _ hm (by rw [modifyAt_length]; exact hj)

theorem bindFigures_of_bound (ps : List (Nat × Nat)) (d : List Item)
    (h : ∀ pj ∈ ps, d.length ≤ pj.2 ∨ (itemAt d pj.2).bound = true) :
    bindFigures d ps = d := by
  induction ps generalizing d with
  | nil => rfl
  | cons p rest ih =>
    obtain ⟨pos, j⟩ := p
    rw [bindFigures]
    have hd : modifyAt d j (bindItem pos) = d := by
      rcases h (pos, j) (List.mem_cons_self _ _) with hout | hb
      · exact modifyAt_of_out d j _ hout
      · exact modifyAt_id d j _ (bindItem_of_bound pos _ hb)
    rw [hd]
    exact ih d fun pj hm => h pj (List.mem_cons_of_mem _ hm)

theorem scanPairs_congr (d d2 : List Item) (i : Nat)
    (h : d.map Item.img = d2.map Item.img) : scanPairs d i = scanPairs d2 i := by
  induction d generalizing d2 i with
  | nil =>
    cases d2 with
    | nil => rfl
    | cons y ys => simp at h
  | cons x xs ih =>
    cases d2 with
    | nil => simp at h
    | cons y ys =>
      simp only [List.map_cons, List.cons.injEq] at h
      obtain ⟨h1, h2⟩ := h
      cases hy : y.img with
      | none =>
        simp only [scanPairs, h1, hy]
        exact ih ys (i + 1) h2
      | some im =>
        simp only [scanPairs, h1, hy]
        rw [ih ys (i + 1) h2]

theorem scanPairs_fst_lt (d : List Item) (i j : Nat) (e : Entry)
    (h : (j, e) ∈ scanPairs d i) : j < i + d.length := by
  induction d generalizing i with
  | nil => simp [scanPairs] at h
  | cons x xs ih =>
    cases hx : x.img with
    | none =>
      simp only [scanPairs, hx] at h
      have h2 := ih (i + 1) h
      simp only [List.length_cons]
      omega
    | some im =>
      simp only [scanPairs, hx, List.mem_cons] at h
      rcases h with heq | hm
      · injection heq with hj he
        simp only [List.length_cons]
        omega
      · have h2 := ih (i + 1) hm
        simp only [List.length_cons]
        omega

theorem scanPairs_mem_of_img (d : List Item) (i j : Nat) (im : ImgEl)
    (hj : j < d.length) (him : (itemAt d j).img = some im) :
    (i + j, entryOfImg (i + j) im) ∈ scanPairs d i := by
  induction d generalizing i j with
  | nil => simp at hj
  | cons x xs ih =>
    cases j with
    | zero =>
      have hx : x.img = some im := him
      simp only [scanPairs, hx, Nat.add_zero]
      exact List.mem_cons_self _ _
    | succ n =>
      have hmem := ih (i + 1) n (by simp only [List.length_cons] at hj; omega)
        (by simpa [itemAt_cons_succ] using him)
      have harith : i + (n + 1) = (i + 1) + n := by omega
      rw [harith]
      cases hx : x.img with
      | none => simpa [scanPairs, hx] using hmem
      | some im2 =>
        simp only [scanPairs, hx, List.mem_cons]
        exact Or.inr hmem

theorem withPositions_mem (l : List Nat) (p0 pos j : Nat)
    (h : (pos, j) ∈ withPositions l p0) : j ∈ l := by
  induction l generalizing p0 with
  | nil => simp [withPositions] at h
  | cons x xs ih =>
    simp only [withPositions, List.mem_cons] at h
    rcases h with heq | hm
    · injection heq with h1 h2
      rw [h2]
      exact List.mem_cons_self _ _
    · exact List.mem_cons_of_mem _ (ih _ hm)

theorem scanGallery_pos_fields (dom : List Item) (figs : List Nat) (imgs : List Entry)
    (cur : Nat) (op cp lb lbi : Bool) (h : ¬ cp = false) :
    scanGallery { dom := dom, figures := figs, images := imgs, current := cur, isOpen := op
                , containerPresent := cp, lbPresent := lb, lbImagePresent := lbi }
      = { dom := bindFigures dom (withPositions ((scanPairs dom 0).map Prod.fst) 0)
        , figures := (scanPairs dom 0).map Prod.fst
        , images := (scanPairs dom 0).map Prod.snd
        , current := cur, isOpen := op
        , containerPresent := cp, lbPresent := lb, lbImagePresent := lbi } := by
  simp [scanGallery, h]

/-! ### Claim theorems -/

/-- C1 counterexample: on a page without a `#lightbox` element,
`openAt(0)` on a non-empty entry list is a no-op — it does not mark the
viewer open and triggers no display update or preload, contradicting
the claim as stated for every non-empty entry list. -/
theorem C1_counterexample :
    noLbState.images ≠ [] ∧ (openAt 0 noLbState).1.isOpen = false ∧
    (openAt 0 noLbState).2 = [] := by decide

/-- C1 (amended): for every non-empty entry list and every integer
index `i`, provided the lightbox surface is present (`#lightbox` and
`#lbImage` exist), `openAt i` sets `current` to `((i % N) + N) % N`,
marks the viewer open, and emits a display update for the new current
followed by the two neighbor preloads. -/
theorem C1_openAt_normalizes (s : GState) (i : Int) (h : s.images ≠ [])
    (hlb : s.lbPresent = true) (hlbi : s.lbImagePresent = true) :
    (((openAt i s).1.current : Int) =
        ((i % (s.images.length : Int)) + (s.images.length : Int)) % (s.images.length : Int)) ∧
    (openAt i s).1.isOpen = true ∧
    (openAt i s).2 =
      Effect.displayUpdate (normIndex i s.images.length)
          (entryAt s.images (normIndex i s.images.length)).large
          (entryAt s.images (normIndex i s.images.length)).alt
        :: ((preloadNeighbors s.images (normIndex i s.images.length)).getD []).map
            Effect.preload := by
  have hl : s.images.length ≠ 0 := by simpa using h
  have hpos : 0 < s.images.length := Nat.pos_of_ne_zero hl
  refine ⟨?_, ?_, ?_⟩
  · rw [openAt_fst s i hl hlb]
    rw [emod_add_self_emod]
    exact normIndex_cast i s.images.length hpos
  · rw [openAt_fst s i hl hlb]
  · rw [openAt_snd s i hl hlb]
    exact updateEff_eq _ hl hlbi (normIndex_lt i _ hpos)

/-- C1 witness: a concrete three-entry viewer, opened at index `-4`,
whose hypotheses hold by computation. -/
theorem C1_openAt_normalizes_witness :
    sampleClosed.images ≠ [] ∧ sampleClosed.lbPresent = true ∧
    sampleClosed.lbImagePresent = true ∧
    ((((openAt (-4) sampleClosed).1.current : Int) =
        (((-4 : Int) % (sampleClosed.images.length : Int)) + (sampleClosed.images.length : Int)) %
          (sampleClosed.images.length : Int)) ∧
      (openAt (-4) sampleClosed).1.isOpen = true ∧
      (openAt (-4) sampleClosed).2 =
        Effect.displayUpdate (normIndex (-4) sampleClosed.images.length)
            (entryAt sampleClosed.images (normIndex (-4) sampleClosed.images.length)).large
            (entryAt sampleClosed.images (normIndex (-4) sampleClosed.images.length)).alt
          :: ((preloadNeighbors sampleClosed.images
                (normIndex (-4) sampleClosed.images.length)).getD []).map Effect.preload) :=
  ⟨by decide, rfl, rfl, C1_openAt_normalizes sampleClosed (-4) (by decide) rfl rfl⟩

/-- C2: with an empty entry list, `openAt`, `next` and `prev` are total
no-ops: the state (in particular `isOpen` and `current`) is unchanged
and no effects are emitted. -/
theorem C2_empty_ops_noop (s : GState) (i : Int) (h : s.images = []) :
    openAt i s = (s, []) ∧ next s = (s, []) ∧ prev s = (s, []) := by
  have hl : s.images.length = 0 := by rw [h]; rfl
  exact ⟨by simp [openAt, hl], by simp [next, hl], by simp [prev, hl]⟩

/-- C2 witness: the empty-container state. -/
theorem C2_empty_ops_noop_witness :
    emptyState.images = [] ∧
    (openAt 5 emptyState = (emptyState, []) ∧ next emptyState = (emptyState, []) ∧
      prev emptyState = (emptyState, [])) :=
  ⟨rfl, C2_empty_ops_noop emptyState 5 rfl⟩

/-- C3 counterexample: scan three items, open at index 2, then shrink
the container to one item and refresh.  The refreshed state has a
non-empty entry list but `current = 2` is not a valid index into it:
the re-scan does not keep `currentIndex` in `[0, entries.length)`. -/
theorem C3_counterexample :
    c3Shrunk.images ≠ [] ∧ c3Shrunk.current = 2 ∧
    ¬ c3Shrunk.current < c3Shrunk.images.length := by decide

/-- C3 (amended): `next` and `prev` always leave `current` in
`[0, entries.length)` on a non-empty list, `openAt` does so whenever it
actually opens (`#lightbox` present), and `close` and the refresh
re-scan leave `current` unchanged — so a refresh that shrinks the list
below the old index leaves `current` out of range. -/
theorem C3_current_bounds (s : GState) (i : Int) (h : s.images ≠ []) :
    (next s).1.current < s.images.length ∧
    (prev s).1.current < s.images.length ∧
    (s.lbPresent = true → (openAt i s).1.current < s.images.length) ∧
    (closeLB s).current = s.current ∧
    (refreshGallery s).current = s.current := by
  have hl : s.images.length ≠ 0 := by simpa using h
  have hpos : 0 < s.images.length := Nat.pos_of_ne_zero hl
  refine ⟨?_, ?_, ?_, ?_, ?_⟩
  · simp only [next, hl, if_neg (by simpa using hl)]
    exact Nat.mod_lt _ hpos
  · simp only [prev, hl, if_neg (by simpa using hl)]
    exact Nat.mod_lt _ hpos
  · intro hlb
    rw [openAt_fst s i hl hlb]
    exact normIndex_lt i _ hpos
  · unfold closeLB
    split <;> rfl
  · unfold refreshGallery scanGallery
    split <;> rfl

/-- C3 witness: the three-entry open viewer. -/
theorem C3_current_bounds_witness :
    sampleOpen.images ≠ [] ∧
    ((next sampleOpen).1.current < sampleOpen.images.length ∧
      (prev sampleOpen).1.current < sampleOpen.images.length ∧
      (sampleOpen.lbPresent = true →
        (openAt 7 sampleOpen).1.current < sampleOpen.images.length) ∧
      (closeLB sampleOpen).current = sampleOpen.current ∧
      (refreshGallery sampleOpen).current = sampleOpen.current) :=
  ⟨by decide, C3_current_bounds sampleOpen 7 (by decide)⟩

/-- C5 counterexample: with an empty entry list (`N = 0`) the JS
computes `images[NaN].large`, which throws before any fetch is issued
(embedded as `none`): the function does not issue 2 fetch attempts for
every list length. -/
theorem C5_counterexample :
    preloadNeighbors ([] : List Entry) 5 = none ∧
    ((preloadNeighbors ([] : List Entry) 5).getD []).length ≠ 2 := by decide

/-- C5 (amended): for every non-empty entry list and every index,
`preloadNeighbors` issues exactly two fetch attempts, for the entries
at offsets `-1` and `+1` modulo `N` (which may coincide when
`N ≤ 2`). -/
theorem C5_preload_two (es : List Entry) (idx : Nat) (h : es ≠ []) :
    preloadNeighbors es idx =
      some [ (entryAt es ((idx + es.length - 1) % es.length)).large
           , (entryAt es ((idx + 1) % es.length)).large ] ∧
    ∀ us, preloadNeighbors es idx = some us → us.length = 2 := by
  have hl : es.length ≠ 0 := by simpa using h
  have heq : preloadNeighbors es idx =
      some [ (entryAt es ((idx + es.length - 1) % es.length)).large
           , (entryAt es ((idx + 1) % es.length)).large ] := by
    simp [preloadNeighbors, hl, Nat.add_mod_right]
  refine ⟨heq, ?_⟩
  intro us hus
  rw [heq] at hus
  cases hus
  rfl

/-- C5 witness: a singleton list, where both neighbor fetches hit the
same (unique) entry. -/
theorem C5_preload_two_witness :
    sampleEntries ≠ [] ∧
    (preloadNeighbors sampleEntries 0 =
      some [ (entryAt sampleEntries ((0 + sampleEntries.length - 1) % sampleEntries.length)).large
           , (entryAt sampleEntries ((0 + 1) % sampleEntries.length)).large ] ∧
      ∀ us, preloadNeighbors sampleEntries 0 = some us → us.length = 2) :=
  ⟨by decide, C5_preload_two sampleEntries 0 (by decide)⟩

/-- C6: on a non-empty list with a valid current index, `next` advances
`current` by one modulo `N` and `prev` retreats it by one modulo `N`
(computed as `(current + N - 1) % N`); `prev` from index 0 yields
`N - 1`, and `next` applied `N` times returns to the original index. -/
theorem C6_cyclic (s : GState) (h : s.images ≠ []) (hc : s.current < s.images.length) :
    (next s).1.current = (s.current + 1) % s.images.length ∧
    (prev s).1.current = (s.current + s.images.length - 1) % s.images.length ∧
    (s.current = 0 → (prev s).1.current = s.images.length - 1) ∧
    (nextState^[s.images.length] s).current = s.current := by
  have hl : s.images.length ≠ 0 := by simpa using h
  refine ⟨?_, ?_, ?_, ?_⟩
  · simp [next, hl]
  · simp [prev, hl]
  · intro h0
    have hp : (prev s).1.current = (s.current + s.images.length - 1) % s.images.length := by
      simp [prev, hl]
    rw [hp, h0, Nat.zero_add]
    exact Nat.mod_eq_of_lt (by omega)
  · rw [(nextState_iter s h hc _).1, Nat.add_mod_right, Nat.mod_eq_of_lt hc]

/-- C6 witness: the three-entry open viewer at index 0. -/
theorem C6_cyclic_witness :
    sampleOpen.images ≠ [] ∧ sampleOpen.current < sampleOpen.images.length ∧
    ((next sampleOpen).1.current = (sampleOpen.current + 1) % sampleOpen.images.length ∧
      (prev sampleOpen).1.current =
        (sampleOpen.current + sampleOpen.images.length - 1) % sampleOpen.images.length ∧
      (sampleOpen.current = 0 →
        (prev sampleOpen).1.current = sampleOpen.images.length - 1) ∧
      (nextState^[sampleOpen.images.length] sampleOpen).current = sampleOpen.current) :=
  ⟨by decide, by decide, C6_cyclic sampleOpen (by decide) (by decide)⟩

/-- C9: `next` and `prev` never touch the `isOpen` flag; on a
non-empty list they advance resp. retreat `current` regardless of
whether the viewer is open, and (when `#lbImage` is present) still
trigger a display update for the new current. -/
theorem C9_nav_preserves_isOpen (s : GState) :
    (next s).1.isOpen = s.isOpen ∧ (prev s).1.isOpen = s.isOpen ∧
    (s.images ≠ [] →
      (next s).1.current = (s.current + 1) % s.images.length ∧
      (prev s).1.current = (s.current + s.images.length - 1) % s.images.length ∧
      (s.lbImagePresent = true →
        ((next s).2).head? = some (Effect.displayUpdate ((s.current + 1) % s.images.length)
          (entryAt s.images ((s.current + 1) % s.images.length)).large
          (entryAt s.images ((s.current + 1) % s.images.length)).alt))) := by
  refine ⟨?_, ?_, ?_⟩
  · unfold next
    split <;> rfl
  · unfold prev
    split <;> rfl
  · intro h
    have hl : s.images.length ≠ 0 := by simpa using h
    have hpos : 0 < s.images.length := Nat.pos_of_ne_zero hl
    refine ⟨by simp [next, hl], by simp [prev, hl], ?_⟩
    intro hlbi
    have hsnd : (next s).2 =
        updateEff { s with current := (s.current + 1) % s.images.length } := by
      simp [next, hl]
    rw [hsnd, updateEff_eq { s with current := (s.current + 1) % s.images.length }
      hl hlbi (Nat.mod_lt _ hpos)]
    rfl

/-- C9 witness: the closed three-entry viewer still navigates. -/
theorem C9_nav_preserves_isOpen_witness :
    sampleClosed.images ≠ [] ∧ sampleClosed.isOpen = false ∧
    ((next sampleClosed).1.isOpen = sampleClosed.isOpen ∧
      (prev sampleClosed).1.isOpen = sampleClosed.isOpen ∧
      ((next sampleClosed).1.current =
          (sampleClosed.current + 1) % sampleClosed.images.length ∧
        (prev sampleClosed).1.current =
          (sampleClosed.current + sampleClosed.images.length - 1) %
            sampleClosed.images.length ∧
        (sampleClosed.lbImagePresent = true →
          ((next sampleClosed).2).head? =
            some (Effect.displayUpdate
              ((sampleClosed.current + 1) % sampleClosed.images.length)
              (entryAt sampleClosed.images
                ((sampleClosed.current + 1) % sampleClosed.images.length)).large
              (entryAt sampleClosed.images
                ((sampleClosed.current + 1) % sampleClosed.images.length)).alt)))) := by
  have h := C9_nav_preserves_isOpen sampleClosed
  exact ⟨by decide, rfl, h.1, h.2.1, h.2.2 (by decide)⟩

/-- C10: `closeLB` leaves `current`, the entry list, the figure list and
the DOM unchanged in every state; it only clears the `isOpen` flag (a
no-op when the `#lightbox` element is absent, in which case the whole
state is untouched). -/
theorem C10_close_frame (s : GState) :
    (closeLB s).current = s.current ∧ (closeLB s).images = s.images ∧
    (closeLB s).figures = s.figures ∧ (closeLB s).dom = s.dom ∧
    (closeLB s).isOpen = (!s.lbPresent && s.isOpen) := by
  unfold closeLB
  cases h : s.lbPresent <;> simp [h]

/-- C4 counterexample: scan a one-item gallery (one handler bound),
then refresh.  The refresh deletes the `_bound` guard and the re-scan
calls `addEventListener` again without removing the old listener, so
the element ends up with two click/key-activate handlers. -/
theorem C4_counterexample :
    (itemAt (scanGallery c4Start).dom 0).handlers = [0] ∧
    (itemAt (refreshGallery (scanGallery c4Start)).dom 0).handlers = [0, 0] ∧
    (itemAt (refreshGallery (scanGallery c4Start)).dom 0).handlers.length ≠ 1 := by decide

/-- C4 (amended): repeated scans with no intervening refresh are
idempotent — a second `scanGallery` changes nothing (in particular it
attaches no duplicate handler to any element), because the `_bound`
guard is still set. -/
theorem C4_scan_idempotent (s : GState) : scanGallery (scanGallery s) = scanGallery s := by
  obtain ⟨dom, figs, imgs, cur, op, cp, lb, lbi⟩ := s
  by_cases hcp : cp = false
  · simp [scanGallery, hcp]
  · have hps : scanPairs (bindFigures dom (withPositions ((scanPairs dom 0).map Prod.fst) 0)) 0
        = scanPairs dom 0 :=
      scanPairs_congr _ _ 0 (bindFigures_map_img dom _)
    have hbind : bindFigures
        (bindFigures dom (withPositions ((scanPairs dom 0).map Prod.fst) 0))
        (withPositions ((scanPairs dom 0).map Prod.fst) 0)
        = bindFigures dom (withPositions ((scanPairs dom 0).map Prod.fst) 0) := by
      apply bindFigures_of_bound
      intro pj hm
      right
      obtain ⟨pos, j⟩ := pj
      have hjf : j ∈ (scanPairs dom 0).map Prod.fst := withPositions_mem _ _ _ _ hm
      obtain ⟨pe, hpe, hje⟩ := List.mem_map.mp hjf
      obtain ⟨j2, e⟩ := pe
      have hj2 : j2 = j := hje
      subst hj2
      have hjlt : j2 < dom.length := by
        have h2 := scanPairs_fst_lt dom 0 j2 e hpe
        omega
      exact bindFigures_binds _ dom pos j2 hm hjlt
    rw [scanGallery_pos_fields dom figs imgs cur op cp lb lbi hcp]
    rw [scanGallery_pos_fields _ _ _ _ _ _ _ _ hcp]
    rw [hps, hbind]

/-- C7 counterexample: a container whose first item has no image and
whose second image has empty alt text produces a single entry,
at position 0 of the entry list, whose caption is "Image 2" — not the
"Image 1" demanded by the entry-list-positional reading of the claim. -/
theorem C7_counterexample :
    (scanGallery c7State).images.length = 1 ∧
    (entryAt (scanGallery c7State).images 0).alt = "Image 2" ∧
    (entryAt (scanGallery c7State).images 0).alt ≠ "Image " ++ toString (0 + 1) := by decide

/-- C7 (amended): for an item at container position `j` (0-based over
all matching items, image-less ones included) whose image has empty alt
text, the scanned entry is `(j, entryOfImg j im)` and its caption is
"Image {j+1}"; the produced entry list is the second projection of
those pairs, so the caption index can exceed the list position of the entry
when earlier items were skipped. -/
theorem C7_caption_position (s : GState) (j : Nat) (im : ImgEl)
    (hcp : s.containerPresent = true) (hj : j < s.dom.length)
    (him : (itemAt s.dom j).img = some im) (halt : im.alt = "") :
    (j, entryOfImg j im) ∈ scanPairs s.dom 0 ∧
    (entryOfImg j im).alt = "Image " ++ toString (j + 1) ∧
    (scanGallery s).images = (scanPairs s.dom 0).map Prod.snd := by
  refine ⟨?_, ?_, ?_⟩
  · simpa using scanPairs_mem_of_img s.dom 0 j im hj him
  · simp [entryOfImg, halt]
  · simp [scanGallery, hcp]

/-- C7 witness: the two-item container of the counterexample, looked at
from the container-position side. -/
theorem C7_caption_position_witness :
    c7State.containerPresent = true ∧ 1 < c7State.dom.length ∧
    (itemAt c7State.dom 1).img = some { src := "a.jpg", dataLarge := none, alt := "" } ∧
    (((1 : Nat), entryOfImg 1 { src := "a.jpg", dataLarge := none, alt := "" })
        ∈ scanPairs c7State.dom 0 ∧
      (entryOfImg 1 { src := "a.jpg", dataLarge := none, alt := "" }).alt =
        "Image " ++ toString (1 + 1) ∧
      (scanGallery c7State).images = (scanPairs c7State.dom 0).map Prod.snd) :=
  ⟨rfl, by decide, rfl,
    C7_caption_position c7State 1 { src := "a.jpg", dataLarge := none, alt := "" }
      rfl (by decide) rfl rfl⟩

/-- C8 counterexample: an image whose `data-large` attribute is present
but empty yields `fullUrl = "thumb.jpg"` (the rendered source), not the
value `""` of the attribute: JS falsiness, not mere presence, decides the
fallback. -/
theorem C8_counterexample :
    (itemAt c8State.dom 0).img = some { src := "thumb.jpg", dataLarge := some "", alt := "x" } ∧
    (entryAt (scanGallery c8State).images 0).large = "thumb.jpg" ∧
    (entryAt (scanGallery c8State).images 0).large ≠ "" := by decide

/-- C8 (amended): the `fullUrl` of a scanned entry is the `large`
attribute when it is present and non-empty, and the rendered source
when the attribute is absent or empty; `thumbnailUrl` is always the
rendered source. -/
theorem C8_fullUrl_fallback (i : Nat) (im : ImgEl) :
    (im.dataLarge = none → (entryOfImg i im).large = im.src) ∧
    (im.dataLarge = some "" → (entryOfImg i im).large = im.src) ∧
    (∀ t, im.dataLarge = some t → ¬ t = "" → (entryOfImg i im).large = t) ∧
    (entryOfImg i im).thumb = im.src := by
  refine ⟨?_, ?_, ?_, rfl⟩
  · intro h
    simp [entryOfImg, h]
  · intro h
    simp [entryOfImg, h]
  · intro t h ht
    simp [entryOfImg, h, ht]

/-- C8 witness: the scenario from the spec — no `large` attribute and source
"thumb.jpg" resolves to fullUrl "thumb.jpg". -/
theorem C8_fullUrl_fallback_witness :
    ({ src := "thumb.jpg", dataLarge := none, alt := "x" } : ImgEl).dataLarge = none ∧
    (entryOfImg 0 { src := "thumb.jpg", dataLarge := none, alt := "x" }).large = "thumb.jpg" :=
  ⟨rfl, (C8_fullUrl_fallback 0 { src := "thumb.jpg", dataLarge := none, alt := "x" }).1 rfl⟩

end Gallery
